import Mathlib

/-!
Shallow embedding of `cmd/sourced/cmd/web.go` (the `sourced web` command of
src-d/sourced-ce): the service-state extractor regex, the per-service monitor
loop, the fail-fast pre-check, the container wait loop, the address
normalization and the timeout race of `OpenUI`.

Strings are modelled as `List Char` (`Str`).  Machine-level details that the
claims do not touch (actual process execution, HTTP, the browser) are
parameters of the corresponding functions.
-/

set_option maxHeartbeats 1000000

abbrev Str := List Char

/-- Word character of Go's RE2 `\w` (and `\d ⊆ \w`): ASCII letters, digits and
underscore.  `Char.isAlphanum` is exactly ASCII `[0-9A-Za-z]` in Lean. -/
def isWordChar (c : Char) : Bool := c.isAlphanum || c == '_'

/-- Whitespace recognized by Go's `strings.TrimSpace` (ASCII part; docker
output is ASCII): space, \t, \n, \r, vertical tab, form feed. -/
def isSpaceChar (c : Char) : Bool :=
  c == ' ' || c == '\t' || c == '\n' || c == '\r' || c == '\x0b' || c == '\x0c'

/-- Model of `strings.TrimSpace`: drop leading and trailing whitespace. -/
def trimSpace (l : Str) : Str :=
  ((l.dropWhile isSpaceChar).reverse.dropWhile isSpaceChar).reverse

/-- Split a string into its lines at newline characters (`(?m)^` of the regex
anchors a match at the start of each such line; `.` and `\w` of RE2 do not
match newline, so every regex match lies inside a single line). -/
def splitLines : Str → List Str
  | [] => [[]]
  | c :: rest =>
    if c == '\n' then [] :: splitLines rest
    else
      match splitLines rest with
      | [] => [[c]]
      | line :: lines => (c :: line) :: lines

/-- Attempt of the alternation `(Up|Exit (\w+))` of `stateExtractor` at one
position (the given suffix): RE2 tries `Up` first, else the literal `Exit `
followed by a greedy `\w+` (the captured group-1 text is returned). -/
def altAt (t : Str) : Option Str :=
  if "Up".data.isPrefixOf t then some "Up".data
  else if "Exit ".data.isPrefixOf t then
    match t.drop 5 with
    | [] => none
    | c :: rest =>
      if isWordChar c then some ("Exit ".data ++ c :: rest.takeWhile isWordChar)
      else none
  else none

/-- Greedy `.*` of `stateExtractor` makes the alternation match at the
rightmost possible position: scan suffixes right-to-left. -/
def lastAlt : Str → Option Str
  | [] => none
  | c :: rest =>
    match lastAlt rest with
    | some s => some s
    | none => altAt (c :: rest)

/-- Per-line match of `stateExtractor = regexp.MustCompile((?m)^srcd-[\w\d]+.*(Up|Exit (\w+)))`:
the line must begin with the literal `srcd-` followed by at least one word
character (`[\w\d]+`, which consumes the character at index 5); the greedy
`.*` then places the alternation at the rightmost matching position at index
ge 6.  Returns the group-1 capture (`Up` or `Exit <word>`). -/
def lineState (l : Str) : Option Str :=
  if "srcd-".data.isPrefixOf l then
    match l.drop 5 with
    | [] => none
    | c :: rest => if isWordChar c then lastAlt rest else none
  else none

/-- Model of `stateExtractor.FindAllStringSubmatch(strings.TrimSpace(out), -1)`
projected to the group-1 captures (`match[1]` is all `runMonitorService`
reads): at most one match per line, in line order. -/
def extractStates (out : Str) : List Str :=
  (splitLines (trimSpace out)).filterMap lineState

/-- Message of `fmt.Errorf("service '%s' is in state '%s'", service, state)`. -/
def stateErrMsg (service state : Str) : Str :=
  "service '".data ++ service ++ "' is in state '".data ++ state ++ "'".data

/-- Message of `fmt.Errorf("service '%s' exited with return code: %s", service, returnCode)`. -/
def codeErrMsg (service code : Str) : Str :=
  "service '".data ++ service ++ "' exited with return code: ".data ++ code

/-- One poll iteration of the `runMonitorService` closure inside `runMonitor`,
processing the extracted states in order.  `some e` models `ch <- e; return`
(a single send on the shared channel, then the goroutine stops); `none` models
falling through to `time.Sleep(1 * time.Second)` and polling again.
`state.drop 5` models the Go slice `state[len("Exit "):len(state)]`; the slice
bound is justified by the shape of regex-produced states (see
`exit_state_slice_in_range`). -/
def runMonitorService (service : Str) : List Str → Option Str
  | [] => none
  | state :: rest =>
    if "Exit".data.isPrefixOf state then
      if service ≠ "ghsync".data ∧ service ≠ "gitcollector".data then
        some (stateErrMsg service state)
      else if state.drop 5 ≠ "0".data then
        some (codeErrMsg service (state.drop 5))
      else runMonitorService service rest
    else if state ≠ "Up".data then some (stateErrMsg service state)
    else runMonitorService service rest

/-- Substring test (semantics of Go's `strings.Contains` / the first-occurrence
search of `strings.Replace`): the needle occurs contiguously in the hay. -/
def containsSub : Str → Str → Bool
  | [], needle => needle.isPrefixOf []
  | c :: rest, needle => needle.isPrefixOf (c :: rest) || containsSub rest needle

/-- Model of `strings.Replace(s, old, new, 1)`: replace the first (leftmost)
occurrence of `old` by `new`; if `old` does not occur, `s` is unchanged. -/
def replaceFirst (old new : Str) : Str → Str
  | [] => if old.isPrefixOf ([] : Str) then new ++ List.drop old.length [] else []
  | c :: rest =>
    if old.isPrefixOf (c :: rest) then new ++ List.drop old.length (c :: rest)
    else c :: replaceFirst old new rest

/-- URL built by `openUI`:
`fmt.Sprintf("http://%s", strings.Replace(address, "0.0.0.0", "127.0.0.1", 1))`. -/
def uiURL (address : Str) : Str :=
  "http://".data ++ replaceFirst "0.0.0.0".data "127.0.0.1".data address

/-- The constant `containerName = "sourced-ui"` (service name of the UI image). -/
def containerName : Str := "sourced-ui".data

/-- Error classification of one `compose.RunWithIO` invocation: the three
environment error kinds recognized by `checkFailFast`
(`workdir.ErrMalformed`, `dir.ErrNotExist`, `dir.ErrNotValid`) or any other
failure. -/
inductive ComposeErr where
  | malformed
  | notExist
  | notValid
  | other
deriving DecidableEq

/-- Result of one `compose.RunWithIO` invocation: success or a classified
error, together with whatever text the command wrote to the stdout buffer. -/
inductive RunResult where
  | ok (out : Str)
  | err (e : ComposeErr) (out : Str)
deriving DecidableEq

/-- The `workdir.ErrMalformed.Is(err) || dir.ErrNotExist.Is(err) || dir.ErrNotValid.Is(err)`
test of `checkFailFast`. -/
def isEnvErr : ComposeErr → Bool
  | .malformed => true
  | .notExist => true
  | .notValid => true
  | .other => false

/-- Text the invocation wrote to the buffer handed to `RunWithIO`. -/
def runOut : RunResult → Str
  | .ok o => o
  | .err _ o => o

/-- Model of `checkFailFast`: runs `port sourced-ui 8088` once (its result is
the parameter) and returns the `(failFast, err)` pair of the Go function. -/
def checkFailFast : RunResult → Bool × Option ComposeErr
  | .ok _ => (false, none)
  | .err e _ => if isEnvErr e then (true, some e) else (false, some e)

/-- Continuation of `OpenUI` after the pre-check: `failFast` models the early
`return err` taken before `ch := make(chan error)`, before `runMonitor(ch)`
and before the readiness goroutine is spawned; `racing` models proceeding to
all of those, carrying `containerReady := err == nil` and the contents the
pre-check left in the shared `stdout` buffer. -/
inductive OpenUIStart where
  | failFast (err : Option ComposeErr)
  | racing (containerReady : Bool) (buf : Str)
deriving DecidableEq

/-- Lines 159–168 of `OpenUI`: run the pre-check on the fresh shared buffer
and either return its error immediately or enter the monitoring race. -/
def openUIStart (r : RunResult) : OpenUIStart :=
  match checkFailFast r with
  | (true, e) => OpenUIStart.failFast e
  | (false, e) => OpenUIStart.racing e.isNone (runOut r)

/-- Model of `waitForContainer`: re-run `port sourced-ui 8088` (the successive
results are the list), appending each attempt's output to the same shared
buffer, until the first non-error result; `none` means no attempt in the list
succeeded and the loop is still sleeping/retrying. -/
def waitForContainer (buf : Str) : List RunResult → Option Str
  | [] => none
  | .ok out :: _ => some (buf ++ out)
  | .err _ out :: rest => waitForContainer (buf ++ out) rest

/-- Message of `fmt.Errorf("could not find the public port of %s", containerName)`. -/
def portNotFoundMsg : Str :=
  "could not find the public port of ".data ++ containerName

/-- Signal sent on `ch` by the readiness goroutine of `OpenUI` once the wait
loop (if any) has finished, as a function of the final shared-buffer contents:
an empty trimmed address is a terminal error; otherwise `openUI(address)` runs
(its HTTP probe loop always eventually returns) and sends `nil` on success or
the wrapped browser error. -/
def readyMsg (buf : Str) (browserErr : Option Str) : Option Str :=
  if trimSpace buf = [] then some portNotFoundMsg
  else
    match browserErr with
    | none => none
    | some e => some ("could not open the browser: ".data ++ e)

/-- URL probed (and opened) by `openUI` for a given final buffer content, or
`none` when the empty-address error path is taken instead. -/
def pipelineProbeURL (buf : Str) : Option Str :=
  if trimSpace buf = [] then none else some (uiURL (trimSpace buf))

/-- Message of `fmt.Errorf("error opening the UI, the container is not running after %v", timeout)`;
`d` is the `%v` rendering of the duration (e.g. `2s`). -/
def timeoutErrMsg (d : Str) : Str :=
  "error opening the UI, the container is not running after ".data ++ d

/-- The `select` at the end of `OpenUI`: `firstMsg = some m` means a channel
message `m` (an error, or `nil` encoded as `none`) arrived before the timer;
`firstMsg = none` means `time.After(timeout)` fired first.  The value returned
by `OpenUI` is `none` for a nil error. -/
def raceResult (firstMsg : Option (Option Str)) (d : Str) : Option Str :=
  match firstMsg with
  | some m => m
  | none => some (timeoutErrMsg d)

/-- Capacity of the shared channel `ch := make(chan error)` in `OpenUI`:
`make` is called without a capacity argument, so the channel is unbuffered. -/
def openUIChanCap : Nat := 0

/-- Every send in `runMonitor`/`runMonitorService` and in the readiness
goroutine is a plain `ch <- …` statement (no `select` with a `default`
branch), i.e. a blocking send. -/
def monitorSendIsBlocking : Bool := true

/-- A blocking send on a channel blocks forever once the only receiver is gone
and the buffer (capacity `cap`, currently holding `queued`) cannot take the
value. -/
def sendBlocksForever (cap queued : Nat) (receiverGone blocking : Bool) : Bool :=
  blocking && receiverGone && decide (cap ≤ queued)

/-! Helper lemmas about `containsSub`, `isPrefixOf` and `takeWhile`. -/

theorem containsSub_of_isPfx {hay needle : Str} (h : needle.isPrefixOf hay = true) :
    containsSub hay needle = true := by
  cases hay with
  | nil => simpa [containsSub] using h
  | cons c rest => simp [containsSub, h]

theorem containsSub_append_left (a : Str) {hay needle : Str}
    (h : containsSub hay needle = true) : containsSub (a ++ hay) needle = true := by
  induction a with
  | nil => simpa using h
  | cons c a ih => simp [containsSub, ih]

theorem containsSub_self_append (a b : Str) : containsSub (a ++ b) a = true :=
  containsSub_of_isPfx (by simp)

theorem containsSub_refl (a : Str) : containsSub a a = true :=
  containsSub_of_isPfx (by simp)

theorem containsSub_append_right {a : Str} (b : Str) {needle : Str}
    (h : containsSub a needle = true) : containsSub (a ++ b) needle = true := by
  induction a with
  | nil =>
    have hn : needle = [] := by
      cases needle with
      | nil => rfl
      | cons x xs => simp [containsSub] at h
    subst hn
    exact containsSub_of_isPfx (by simp)
  | cons c a ih =>
    rw [containsSub] at h
    rcases Bool.or_eq_true _ _ |>.mp h with h' | h'
    · rw [List.cons_append]
      apply containsSub_of_isPfx
      rw [List.isPrefixOf_iff_prefix] at h' ⊢
      exact h'.trans (by rw [← List.cons_append]; exact List.prefix_append _ _)
    · rw [List.cons_append, containsSub, ih h']
      simp

theorem containsSub_mid (a b c : Str) : containsSub (a ++ b ++ c) b = true := by
  rw [List.append_assoc]
  exact containsSub_append_left a (containsSub_self_append b c)

theorem all_takeWhile (p : Char → Bool) (l : Str) : (l.takeWhile p).all p = true := by
  induction l with
  | nil => rfl
  | cons c rest ih =>
    cases h : p c with
    | true => simp [List.takeWhile_cons, h, ih]
    | false => simp [List.takeWhile_cons, h]

/-! Shape of every state captured by `stateExtractor`. -/

/-- Grammar of a group-1 capture of `stateExtractor`: the literal `Up`, or
`Exit ` followed by a nonempty run of word characters. -/
def StateShape (s : Str) : Prop :=
  s = "Up".data ∨ ∃ w, w ≠ [] ∧ w.all isWordChar = true ∧ s = "Exit ".data ++ w

theorem altAt_shape {t s : Str} (h : altAt t = some s) : StateShape s := by
  unfold altAt at h
  split at h
  · injection h with h
    exact Or.inl h.symm
  · split at h
    · split at h
      · exact absurd h (by simp)
      · rename_i c rest heq
        split at h
        · rename_i hw
          injection h with h
          refine Or.inr ⟨c :: rest.takeWhile isWordChar, by simp, ?_, h.symm⟩
          simp [hw, all_takeWhile isWordChar rest]
        · exact absurd h (by simp)
    · exact absurd h (by simp)

theorem lastAlt_shape : ∀ {l s : Str}, lastAlt l = some s → StateShape s := by
  intro l
  induction l with
  | nil => intro s h; simp [lastAlt] at h
  | cons c rest ih =>
    intro s h
    unfold lastAlt at h
    split at h
    · rename_i s' h'
      injection h with h
      exact h ▸ ih h'
    · rename_i h'
      exact altAt_shape h

theorem lineState_shape {l s : Str} (h : lineState l = some s) :
    "srcd-".data.isPrefixOf l = true ∧ StateShape s := by
  unfold lineState at h
  split at h
  case isTrue hp =>
    refine ⟨hp, ?_⟩
    split at h
    · exact absurd h (by simp)
    · split at h
      · exact lastAlt_shape h
      · exact absurd h (by simp)
  case isFalse hp => exact absurd h (by simp)

theorem extract_shape {out s : Str} (h : s ∈ extractStates out) : StateShape s := by
  unfold extractStates at h
  rw [List.mem_filterMap] at h
  obtain ⟨l, _, hl⟩ := h
  exact (lineState_shape hl).2

/-! Small facts about the `Exit ` shape. -/

theorem exit_isPfx (w : Str) : "Exit".data.isPrefixOf ("Exit ".data ++ w) = true := by
  rw [List.isPrefixOf_iff_prefix]
  exact List.IsPrefix.trans ⟨[' '], by decide⟩ (List.prefix_append _ _)

theorem exit_drop5 (w : Str) : ("Exit ".data ++ w).drop 5 = w :=
  List.drop_left' (by decide)

theorem exit_ne_up (c : Str) : "Exit ".data ++ c ≠ "Up".data := by
  intro h
  have h2 := congrArg List.length h
  rw [List.length_append] at h2
  have e1 : ("Exit ".data : Str).length = 5 := by decide
  have e2 : ("Up".data : Str).length = 2 := by decide
  rw [e1, e2] at h2
  omega

theorem exit_inj {c w : Str} (h : "Exit ".data ++ c = "Exit ".data ++ w) : c = w :=
  List.append_cancel_left h

/-! Generic monitor-loop lemmas (over an arbitrary extracted-state list). -/

theorem mon_nonallow_some (service : Str) {states : List Str}
    (hna : ¬(service = "ghsync".data ∨ service = "gitcollector".data))
    (hex : ∃ s ∈ states, "Exit".data.isPrefixOf s = true) :
    ∃ e, runMonitorService service states = some e := by
  induction states with
  | nil =>
    obtain ⟨s, hs, _⟩ := hex
    exact absurd hs (List.not_mem_nil s)
  | cons st rest ih =>
    have hand : service ≠ "ghsync".data ∧ service ≠ "gitcollector".data := by
      constructor <;> intro e <;> exact hna (by simp [e])
    by_cases hp : "Exit".data.isPrefixOf st = true
    · exact ⟨stateErrMsg service st, by simp [runMonitorService, hp, hand.1, hand.2]⟩
    · obtain ⟨s, hs, hsp⟩ := hex
      have hs' : s ∈ rest := by
        rcases List.mem_cons.mp hs with h | h
        · exact absurd (h ▸ hsp) hp
        · exact h
      by_cases hu : st = "Up".data
      · obtain ⟨e, he⟩ := ih ⟨s, hs', hsp⟩
        exact ⟨e, by simp [runMonitorService, hp, hu, he]⟩
      · exact ⟨stateErrMsg service st, by simp [runMonitorService, hp, hu]⟩

theorem mon_allow_code (service : Str) {states : List Str}
    (ha : service = "ghsync".data ∨ service = "gitcollector".data)
    (hshape : ∀ s ∈ states, StateShape s) :
    ∀ c, ("Exit ".data ++ c) ∈ states → c ≠ "0".data →
    ∃ c', c' ≠ "0".data ∧ ("Exit ".data ++ c') ∈ states ∧
      runMonitorService service states = some (codeErrMsg service c') := by
  induction states with
  | nil => intro c hc _; exact absurd hc (List.not_mem_nil _)
  | cons st rest ih =>
    intro c hc hc0
    have hna : ¬(service ≠ "ghsync".data ∧ service ≠ "gitcollector".data) := by
      rcases ha with h | h <;> simp [h]
    have hrest := fun s hs => hshape s (List.mem_cons_of_mem _ hs)
    rcases hshape st (List.mem_cons_self st rest) with hup | ⟨w, hw0, hwall, hwe⟩
    · have hcr : ("Exit ".data ++ c) ∈ rest := by
        rcases List.mem_cons.mp hc with h | h
        · exact absurd (h.trans hup) (exit_ne_up c)
        · exact h
      obtain ⟨c', hc'0, hc'm, hrun⟩ := ih hrest c hcr hc0
      refine ⟨c', hc'0, List.mem_cons_of_mem _ hc'm, ?_⟩
      have hp : ("Exit".data.isPrefixOf st) = false := by
        rw [hup]; decide
      simp [runMonitorService, hp, hup, hrun]
    · subst hwe
      have hp := exit_isPfx w
      by_cases hw0' : w = "0".data
      · subst hw0'
        have hcr : ("Exit ".data ++ c) ∈ rest := by
          rcases List.mem_cons.mp hc with h | h
          · exact absurd (exit_inj h) hc0
          · exact h
        obtain ⟨c', hc'0, hc'm, hrun⟩ := ih hrest c hcr hc0
        refine ⟨c', hc'0, List.mem_cons_of_mem _ hc'm, ?_⟩
        have hd : (("Exit ".data ++ "0".data : Str)).drop 5 = "0".data := exit_drop5 _
        simp [runMonitorService, hp, hna, hd, hrun]
      · refine ⟨w, hw0', List.mem_cons_self _ _, ?_⟩
        have hd := exit_drop5 w
        simp [runMonitorService, hp, hna, hd, hw0']

theorem mon_benign (service : Str)
    (ha : service = "ghsync".data ∨ service = "gitcollector".data) :
    ∀ states : List Str, (∀ s ∈ states, s = "Exit 0".data ∨ s = "Up".data) →
    runMonitorService service states = none := by
  intro states
  induction states with
  | nil => intro _; rfl
  | cons st rest ih =>
    intro hb
    have hna : ¬(service ≠ "ghsync".data ∧ service ≠ "gitcollector".data) := by
      rcases ha with h | h <;> simp [h]
    have hrest := fun s hs => hb s (List.mem_cons_of_mem _ hs)
    rcases hb st (List.mem_cons_self st rest) with h | h
    · subst h
      have hp : ("Exit".data.isPrefixOf ("Exit 0".data : Str)) = true := by decide
      have hd : (("Exit 0".data : Str)).drop 5 = "0".data := by decide
      simp [runMonitorService, hp, hna, hd, ih hrest]
    · subst h
      have hp : ("Exit".data.isPrefixOf ("Up".data : Str)) = false := by decide
      simp [runMonitorService, hp, ih hrest]

/-- Model of `strings.Replace(s, old, new, 1)` when `old` does not occur in
`s`: the string is unchanged. -/
theorem replaceFirst_not_contains (old new : Str) :
    ∀ s : Str, containsSub s old = false → replaceFirst old new s = s := by
  intro s
  induction s with
  | nil =>
    intro h
    rw [containsSub] at h
    simp [replaceFirst, h]
  | cons c rest ih =>
    intro h
    rw [containsSub] at h
    rcases Bool.or_eq_false_iff.mp h with ⟨h1, h2⟩
    simp [replaceFirst, h1, ih h2]

/-! Claim theorems. -/

/-- C1: for every polled status output containing a matched `Exit` state, the
monitor sends exactly one terminal error on the shared channel and stops
(modelled by `runMonitorService` returning `some e`, which is a single
`ch <- e; return`) whenever the service is not allow-listed (any code), or is
allow-listed with a nonzero code; in the allow-listed nonzero case the message
is `service '<name>' exited with return code: <code>` for some nonzero matched
code, which contains the service name and the exit code. -/
theorem monitor_exit_sends_single_error (service out : Str) :
    (¬(service = "ghsync".data ∨ service = "gitcollector".data) →
      (∃ s ∈ extractStates out, "Exit".data.isPrefixOf s = true) →
      ∃ e, runMonitorService service (extractStates out) = some e)
    ∧ ((service = "ghsync".data ∨ service = "gitcollector".data) →
      ∀ c, ("Exit ".data ++ c) ∈ extractStates out → c ≠ "0".data →
      ∃ c', c' ≠ "0".data ∧ ("Exit ".data ++ c') ∈ extractStates out ∧
        runMonitorService service (extractStates out) = some (codeErrMsg service c') ∧
        containsSub (codeErrMsg service c') service = true ∧
        containsSub (codeErrMsg service c') c' = true) := by
  constructor
  · exact fun hna hex => mon_nonallow_some service hna hex
  · intro ha c hc hc0
    obtain ⟨c', hc'0, hm, hrun⟩ :=
      mon_allow_code service ha (fun s hs => extract_shape hs) c hc hc0
    refine ⟨c', hc'0, hm, hrun, ?_, ?_⟩
    · unfold codeErrMsg
      exact containsSub_append_right c' (containsSub_append_right _
        (containsSub_append_left _ (containsSub_refl service)))
    · unfold codeErrMsg
      exact containsSub_append_left _ (containsSub_refl c')

/-- Witness for C1: allow-listed service `ghsync` with a matched `Exit 3`. -/
theorem monitor_exit_sends_single_error_witness :
    ∃ c', c' ≠ "0".data ∧
      ("Exit ".data ++ c') ∈ extractStates "srcd-ghsync_1   /bin/ghsync   Exit 3".data ∧
      runMonitorService "ghsync".data
          (extractStates "srcd-ghsync_1   /bin/ghsync   Exit 3".data) =
        some (codeErrMsg "ghsync".data c') ∧
      containsSub (codeErrMsg "ghsync".data c') "ghsync".data = true ∧
      containsSub (codeErrMsg "ghsync".data c') c' = true :=
  (monitor_exit_sends_single_error "ghsync".data
      "srcd-ghsync_1   /bin/ghsync   Exit 3".data).2
    (Or.inl rfl) "3".data (by decide) (by decide)

/-- C2: for every polled status output whose matched states are all `Exit 0`
(for an allow-listed service) or `Up`, the monitor sends nothing on the
channel and continues polling (`runMonitorService` returns `none`, i.e. the
loop reaches `time.Sleep` and repeats). -/
theorem monitor_allowlisted_exit0_no_signal (service out : Str)
    (ha : service = "ghsync".data ∨ service = "gitcollector".data)
    (hb : ∀ s ∈ extractStates out, s = "Exit 0".data ∨ s = "Up".data) :
    runMonitorService service (extractStates out) = none :=
  mon_benign service ha (extractStates out) hb

/-- Witness for C2: `ghsync` whose status line matches `Exit 0`. -/
theorem monitor_allowlisted_exit0_no_signal_witness :
    runMonitorService "ghsync".data
      (extractStates "srcd-ghsync_1   /bin/ghsync   Exit 0".data) = none :=
  monitor_allowlisted_exit0_no_signal "ghsync".data
    "srcd-ghsync_1   /bin/ghsync   Exit 0".data (Or.inl rfl) (by decide)

/-- C3: if the pre-check port query fails with a recognized environment error
kind, `OpenUI` returns that error immediately: the model goes to `failFast`,
the constructor taken before `make(chan error)`, before `runMonitor` and
before the readiness goroutine, so no channel, monitors or pipeline exist. -/
theorem openUI_failfast_env_error (e : ComposeErr) (out : Str)
    (he : isEnvErr e = true) :
    openUIStart (RunResult.err e out) = OpenUIStart.failFast (some e) := by
  simp [openUIStart, checkFailFast, he]

/-- Witness for C3: a malformed-workdir error on the pre-check. -/
theorem openUI_failfast_env_error_witness :
    openUIStart (RunResult.err ComposeErr.malformed []) =
      OpenUIStart.failFast (some ComposeErr.malformed) :=
  openUI_failfast_env_error ComposeErr.malformed [] rfl

/-- Counterexample for C4: the timeout error of `OpenUI` does not contain the
container name `sourced-ui` anywhere (it only says "the container"), so it
does not name the container; the duration it does contain. -/
theorem timeout_error_lacks_container_name :
    raceResult none "2s".data = some (timeoutErrMsg "2s".data) ∧
    containsSub (timeoutErrMsg "2s".data) containerName = false :=
  ⟨rfl, by decide⟩

/-- C4 (amended): if the timeout elapses before any channel message, `OpenUI`
returns the timeout error, whose message contains the configured duration and
the generic word `container`, but not the container's name. -/
theorem timeout_error_message (d : Str) :
    raceResult none d = some (timeoutErrMsg d) ∧
    containsSub (timeoutErrMsg d) d = true ∧
    containsSub (timeoutErrMsg d) "container".data = true := by
  refine ⟨rfl, ?_, ?_⟩
  · unfold timeoutErrMsg
    exact containsSub_append_left _ (containsSub_refl d)
  · unfold timeoutErrMsg
    exact containsSub_append_right d (by decide)

/-- Counterexample for C5: a successful port query with empty output ends the
`waitForContainer` loop at once (it does not keep polling for non-empty
output), and the empty trimmed address then produces the terminal
`could not find the public port` error instead of further polling. -/
theorem empty_address_not_retried :
    waitForContainer [] [RunResult.ok []] = some [] ∧
    readyMsg [] none = some portNotFoundMsg := by decide

/-- C5 (amended): `waitForContainer` polls the port query at the fixed
interval past every failed attempt and stops at the first successful query
regardless of its output; if the accumulated trimmed output is then empty,
the readiness goroutine sends the terminal port-not-found error rather than
polling further. -/
theorem waitForContainer_stops_on_success (buf out out2 : Str) (e : ComposeErr)
    (rest : List RunResult) (berr : Option Str)
    (hempty : trimSpace (buf ++ out2) = []) :
    waitForContainer buf (RunResult.err e out :: rest) =
      waitForContainer (buf ++ out) rest ∧
    waitForContainer buf (RunResult.ok out2 :: rest) = some (buf ++ out2) ∧
    readyMsg (buf ++ out2) berr = some portNotFoundMsg := by
  refine ⟨rfl, rfl, ?_⟩
  simp [readyMsg, hempty]

/-- Witness for C5 (amended), with empty outputs throughout. -/
theorem waitForContainer_stops_on_success_witness :
    waitForContainer [] [RunResult.err ComposeErr.other []] =
      waitForContainer ([] ++ []) [] ∧
    waitForContainer [] [RunResult.ok []] = some (([] : Str) ++ []) ∧
    readyMsg (([] : Str) ++ []) none = some portNotFoundMsg :=
  waitForContainer_stops_on_success [] [] [] ComposeErr.other [] none (by decide)

/-- Counterexample for C6: a line whose token after `Exit` is the non-numeric
word `abc` does match as an exit state (RE2 `\w+` accepts letters). -/
theorem exit_nonnumeric_matches :
    extractStates "srcd-x Exit abc".data = ["Exit abc".data] ∧
    ("Exit".data.isPrefixOf ("Exit abc".data : Str)) = true := by decide

/-- C6 (amended): the pattern matches a line beginning with the literal
`srcd-` followed by at least one word character, and captures either the
literal `Up` or `Exit ` followed by a nonempty run of word characters
(letters, digits or underscore — not only digits); a non-numeric word token
after `Exit` therefore also matches as an exit state, and only a token
starting with a non-word character fails to match. -/
theorem stateExtractor_match_shape (l s : Str) (h : lineState l = some s) :
    "srcd-".data.isPrefixOf l = true ∧
    (s = "Up".data ∨ ∃ w, w ≠ [] ∧ w.all isWordChar = true ∧ s = "Exit ".data ++ w) :=
  lineState_shape h

/-- Witness for C6 (amended): the matched line `srcd-x Exit abc`. -/
theorem stateExtractor_match_shape_witness :
    "srcd-".data.isPrefixOf ("srcd-x Exit abc".data : Str) = true ∧
    (("Exit abc".data : Str) = "Up".data ∨
      ∃ w, w ≠ [] ∧ w.all isWordChar = true ∧
        ("Exit abc".data : Str) = "Exit ".data ++ w) :=
  stateExtractor_match_shape "srcd-x Exit abc".data "Exit abc".data (by decide)

/-- Counterexample for C7: the host `10.0.0.0` is not `0.0.0.0`, yet the
address is not left unchanged — `strings.Replace` substitutes the first
occurrence of the substring `0.0.0.0`, mangling the URL. -/
theorem normalize_mangles_lookalike_host :
    uiURL "10.0.0.0:8088".data = "http://1127.0.0.1:8088".data ∧
    (uiURL "10.0.0.0:8088".data == "http://".data ++ "10.0.0.0:8088".data) = false := by
  decide

/-- C7 (amended): normalization replaces the first occurrence of the substring
`0.0.0.0` by `127.0.0.1` and prefixes `http://`; `0.0.0.0:8088` becomes
`http://127.0.0.1:8088`, and an address in which `0.0.0.0` does not occur as a
substring (such as `192.168.1.5:8088`) is unchanged apart from the prefix. -/
theorem openUI_url_normalization (a : Str)
    (h : containsSub a "0.0.0.0".data = false) :
    uiURL "0.0.0.0:8088".data = "http://127.0.0.1:8088".data ∧
    uiURL a = "http://".data ++ a := by
  refine ⟨by decide, ?_⟩
  unfold uiURL
  rw [replaceFirst_not_contains _ _ a h]

/-- Witness for C7 (amended): the address `192.168.1.5:8088`. -/
theorem openUI_url_normalization_witness :
    uiURL "0.0.0.0:8088".data = "http://127.0.0.1:8088".data ∧
    uiURL "192.168.1.5:8088".data = "http://".data ++ "192.168.1.5:8088".data :=
  openUI_url_normalization "192.168.1.5:8088".data (by decide)

/-- C8 (code): the shared channel is created by `make(chan error)` with
capacity 0 and every monitor/pipeline send is a plain blocking `ch <- …`, so
once the single receiver has returned, any further sender blocks forever —
the claim's required buffering/best-effort property does not hold. -/
theorem channel_unbuffered_blocking :
    openUIChanCap = 0 ∧ monitorSendIsBlocking = true ∧
    sendBlocksForever openUIChanCap 0 true monitorSendIsBlocking = true := by
  decide

/-- C9: every extracted state beginning with `Exit` has the exact form
`Exit ` followed by at least one word character, so the Go slice
`state[len("Exit "):len(state)]` in the monitor is within bounds
(`len("Exit ") = 5 ≤ len(state)`). -/
theorem exit_state_slice_in_range (out s : Str) (hm : s ∈ extractStates out)
    (hp : "Exit".data.isPrefixOf s = true) :
    ∃ w, w ≠ [] ∧ w.all isWordChar = true ∧ s = "Exit ".data ++ w ∧
      ("Exit ".data : Str).length ≤ s.length := by
  rcases extract_shape hm with hup | ⟨w, hw0, hwall, hwe⟩
  · rw [hup] at hp
    exact absurd hp (by decide)
  · refine ⟨w, hw0, hwall, hwe, ?_⟩
    rw [hwe, List.length_append]
    omega

/-- Witness for C9: the matched state `Exit 7`. -/
theorem exit_state_slice_in_range_witness :
    ∃ w, w ≠ [] ∧ w.all isWordChar = true ∧
      ("Exit 7".data : Str) = "Exit ".data ++ w ∧
      ("Exit ".data : Str).length ≤ ("Exit 7".data : Str).length :=
  exit_state_slice_in_range "srcd-a Exit 7".data "Exit 7".data
    (by decide) (by decide)

/-- C10: a non-environment pre-check failure leaves its output in the shared
buffer (`racing false out0`), `waitForContainer` appends to that same buffer,
and the probed address is the whitespace-trimmed concatenation of the
pre-check output and the wait-loop output. -/
theorem openUI_shared_buffer_concat (e : ComposeErr) (out0 okOut : Str)
    (he : isEnvErr e = false) :
    openUIStart (RunResult.err e out0) = OpenUIStart.racing false out0 ∧
    waitForContainer out0 [RunResult.ok okOut] = some (out0 ++ okOut) ∧
    (trimSpace (out0 ++ okOut) ≠ [] →
      pipelineProbeURL (out0 ++ okOut) = some (uiURL (trimSpace (out0 ++ okOut)))) := by
  refine ⟨?_, rfl, fun h => ?_⟩
  · simp [openUIStart, checkFailFast, runOut, he]
  · simp [pipelineProbeURL, h]

/-- Witness for C10: pre-check output `junk\n` plus port output
`0.0.0.0:8088\n`; the probed URL is built from the concatenation, and differs
from the URL of the successful query's output alone. -/
theorem openUI_shared_buffer_concat_witness :
    openUIStart (RunResult.err ComposeErr.other "junk\n".data) =
      OpenUIStart.racing false "junk\n".data ∧
    waitForContainer "junk\n".data [RunResult.ok "0.0.0.0:8088\n".data] =
      some ("junk\n".data ++ "0.0.0.0:8088\n".data) ∧
    pipelineProbeURL ("junk\n".data ++ "0.0.0.0:8088\n".data) =
      some (uiURL (trimSpace ("junk\n".data ++ "0.0.0.0:8088\n".data))) ∧
    (pipelineProbeURL ("junk\n".data ++ "0.0.0.0:8088\n".data) ==
      some (uiURL (trimSpace ("0.0.0.0:8088\n".data : Str)))) = false := by
  obtain ⟨h1, h2, h3⟩ :=
    openUI_shared_buffer_concat ComposeErr.other "junk\n".data "0.0.0.0:8088\n".data rfl
  exact ⟨h1, h2, h3 (by decide), by decide⟩

